import Mathlib

/-!
Shallow embedding of the printbot sources (src/bot: settings.py, helpers.py,
handlers.py) together with the pieces of Python value semantics the handlers
rely on: truthiness, attribute lookup on instances, tuple-unpacking of
strings, assert statements, and int-vs-str comparison.

External effects are made explicit: the local file system is a list of
existing paths, external commands are a success predicate over argument
vectors, and every handler returns the messages it sent, the commands it
ran, the final file system, and the uncaught exception if one escaped.
-/

/-- Keys of bot.messages.MESSAGES as used by handlers.py; the message texts
themselves are opaque to the claims. -/
inductive Msg
  | no_auth
  | downloading_file
  | preparing_file
  | unprintable
  | failed
  | page_count_warning
  | printing_failed
  | sent_to_printer
  | start
  | print_queue
  | empty_queue
  | status_failed
  deriving DecidableEq

/-- Python exceptions that can escape the modelled code paths. -/
inductive PyErr
  | valueError
  | assertionError
  | typeError
  | attributeError
  deriving DecidableEq

/-- Python values that can end up in PrintJob.page_count: an int, or the
one-character str produced by unpacking a string (handlers.py line 107). -/
inductive PyVal
  | int (n : Int)
  | str (s : String)
  deriving DecidableEq

/-- Python truthiness of a PyVal. -/
def pyTruthy : PyVal → Bool
  | .int n => n != 0
  | .str s => s != ""

/-- Python comparison v >= 20 : ints compare numerically, a str compared
against an int raises TypeError. -/
def pyGeTwenty : PyVal → Except PyErr Bool
  | .int n => .ok (decide (n ≥ 20))
  | .str _ => .error .typeError

/-- Values context.bot_data.get("allowed_users") can hold: absent (None),
a non-iterable number, or a tuple of ints as settings.py produces. -/
inductive PolicyVal
  | none
  | int (n : Int)
  | tuple (l : List Int)
  deriving DecidableEq

/-- Python truthiness of the policy value (handlers.py line 46). -/
def policyTruthy : PolicyVal → Bool
  | .none => false
  | .int n => n != 0
  | .tuple l => !l.isEmpty

/-- isinstance(allowed_users, abc.Iterable) on the modelled values
(handlers.py line 54). -/
def policyIterable : PolicyVal → Bool
  | .tuple _ => true
  | _ => false

/-- Membership test user_id in allowed_users for the iterable values
(handlers.py line 64). -/
def policyContains : PolicyVal → Int → Bool
  | .tuple l, uid => l.contains uid
  | _, _ => false

/-- PrintJob.is_user_valid (handlers.py lines 38-75): the decision together
with the messages it sends. The code allows on a falsy policy, denies with
the no_auth message on a truthy non-iterable policy, and otherwise decides
by membership. -/
def is_user_valid (policy : PolicyVal) (uid : Int) : Bool × List Msg :=
  if policyTruthy policy = false then (true, [])
  else if policyIterable policy = false then (false, [Msg.no_auth])
  else if policyContains policy uid = false then (false, [Msg.no_auth])
  else (true, [])

/-- PrintContext instance attributes (settings.py lines 41-47). -/
structure PrintContext where
  printer_name : Option String
  allowed_users : Option (List Int)
  page_confirm_limit : Int
  deriving DecidableEq

/-- Settings instance attributes: exactly the ones assigned by
Settings.__init__ (settings.py lines 134-141). -/
structure Settings where
  debug : Bool
  debug_printer_name : String
  tg_token : String
  print_context : PrintContext
  deriving DecidableEq

/-- Values a Settings attribute lookup can yield. -/
inductive SettingsAttr
  | bool (b : Bool)
  | str (s : String)
  | ctx (c : PrintContext)
  deriving DecidableEq

/-- Python attribute lookup on a Settings instance: exactly the instance
attributes assigned in Settings.__init__. No attribute is named
allowed_users or printer_name; those live on the print_context value
(the methods of the class carry none of those names either). -/
def Settings.lookup (s : Settings) : String → Option SettingsAttr
  | "debug" => some (.bool s.debug)
  | "debug_printer_name" => some (.str s.debug_printer_name)
  | "tg_token" => some (.str s.tg_token)
  | "print_context" => some (.ctx s.print_context)
  | _ => Option.none

/-- The built Application: its bot_data entries and registered handlers. -/
structure App where
  bot_data : List (String × SettingsAttr)
  handlers : List String
  deriving DecidableEq

/-- build_app (handlers.py lines 287-310): reads settings.tg_token (line
288), then settings.allowed_users (line 290), then settings.printer_name or
settings.debug_printer_name (lines 296-298), and only then registers the
four handlers; a failing attribute lookup raises AttributeError. -/
def build_app (s : Settings) : Except PyErr App :=
  match s.lookup "tg_token" with
  | Option.none => .error .attributeError
  | some _ =>
    match s.lookup "allowed_users" with
    | Option.none => .error .attributeError
    | some au =>
      match s.lookup (if s.debug = false then "printer_name" else "debug_printer_name") with
      | Option.none => .error .attributeError
      | some pn =>
        .ok { bot_data := [("allowed_users", au), ("printer_name", pn)],
              handlers := ["handle_doc", "handle_photo", "start", "status"] }

/-- PrintContext._validate_int (settings.py lines 49-58), used at line 47 to
read PAGE_CONFIRM_LIMIT with default 20; int(val) parsing is modelled by
String.toInt?. -/
def validate_int (val : Option String) (default : Int) : Int :=
  match val with
  | Option.none => default
  | some s =>
    if s = "" then default
    else match s.toInt? with
      | some n => n
      | Option.none => default

/-- Split a character list at the last occurrence of c: the part before and
the part after, the latter containing no further c. -/
def splitAtLastChar (c : Char) : List Char → Option (List Char × List Char)
  | [] => Option.none
  | x :: xs =>
    match splitAtLastChar c xs with
    | some (b, a) => some (x :: b, a)
    | Option.none => if x = c then some ([], xs) else Option.none

/-- os.path.splitext on the characters of a path: split at the last dot of
the final path component, unless every character of that component before
the dot is itself a dot. -/
def splitextList (l : List Char) : List Char × List Char :=
  let p : List Char × List Char :=
    match splitAtLastChar '/' l with
    | Option.none => ([], l)
    | some (dd, b) => (dd ++ ['/'], b)
  match splitAtLastChar '.' p.2 with
  | Option.none => (l, [])
  | some (b, a) => if b.any (fun ch => ch != '.') then (p.1 ++ b, '.' :: a) else (l, [])

def dropTrailingSlashes (l : List Char) : List Char :=
  (l.reverse.dropWhile (fun ch => ch == '/')).reverse

/-- os.path.dirname on the characters of a path: everything before the last
slash, with trailing slashes stripped unless the result is all slashes. -/
def dirnameList (l : List Char) : List Char :=
  match splitAtLastChar '/' l with
  | Option.none => []
  | some (dd, _) =>
    let head := dd ++ ['/']
    if head.all (fun ch => ch == '/') then head else dropTrailingSlashes head

/-- os.path.splitext on strings. -/
def splitext (s : String) : String × String :=
  (String.mk (splitextList s.toList).1, String.mk (splitextList s.toList).2)

/-- os.path.dirname on strings. -/
def dirname (s : String) : String :=
  String.mk (dirnameList s.toList)

/-- The converted output path (helpers.py line 91):
os.path.splitext(input_path)[0] + ".pdf". -/
def pdf_path (s : String) : String :=
  (splitext s).1 ++ ".pdf"

/-- Binary signatures distinguished by helpers.py through the filetype
library: the printable raster and pdf types (line 117), the office document
types recognised by filetype.is_document (line 125), any other detected
type, or no detection at all (Option.none). -/
inductive FileSig
  | pdf
  | bmp
  | gif
  | ico
  | jpeg
  | png
  | tiff
  | doc
  | docx
  | odt
  | xls
  | xlsx
  | ods
  | ppt
  | pptx
  | odp
  | other
  deriving DecidableEq

def printable_types : List FileSig :=
  [.pdf, .bmp, .gif, .ico, .jpeg, .png, .tiff]

def document_types : List FileSig :=
  [.doc, .docx, .odt, .xls, .xlsx, .ods, .ppt, .pptx, .odp]

/-- isinstance(file_type, (Pdf, Bmp, Gif, Ico, Jpeg, Png, Tiff)) with
file_type the result of filetype.guess; isinstance of None is False. -/
def isPrintableSig : Option FileSig → Bool
  | some t => printable_types.contains t
  | Option.none => false

/-- filetype.is_document on the same detection result. -/
def isDocumentSig : Option FileSig → Bool
  | some t => document_types.contains t
  | Option.none => false

/-- ClassificationResult of the spec. -/
inductive Classification
  | printableAsIs
  | convertibleDocument
  | unsupported
  deriving DecidableEq

/-- Branch structure of prepare_for_printing (helpers.py lines 117-148) as a
pure classification of the detected signature. -/
def classify (ft : Option FileSig) : Classification :=
  if isPrintableSig ft then .printableAsIs
  else if isDocumentSig ft then .convertibleDocument
  else .unsupported

/-- External state of one handler invocation: the existing files, the
content-based signature detection, the resolved conversion binary (the
first truthy of shutil.which soffice and shutil.which libreoffice), success
of external commands by argument vector, whether a successful conversion run
writes its pdf, which removals raise OSError, the bot_data values, the
parsed page_confirm_limit setting, and the lpstat -o output. -/
structure World where
  fs : List String
  guess : String → Option FileSig
  soffice : Option String
  runOk : List String → Bool
  convertProduces : Bool
  removeFails : String → Bool
  allowed_users : PolicyVal
  printer_name : Option String
  page_confirm_limit : Int
  lpstatOut : String

/-- The distinct FileConversionError raise sites of _convert_to_pdf
(helpers.py lines 69, 87, 94). -/
inductive ConvError
  | unavailable
  | commandFailed
  | outputMissing
  deriving DecidableEq

/-- The conversion command argument vector (helpers.py lines 73-82), with
output directory os.path.dirname(input_path). -/
def convCmd (sof : String) (input_path : String) : List String :=
  [sof, "--headless", "--convert-to", "pdf", "--outdir", dirname input_path, input_path]

/-- The file system after the conversion command ran successfully. -/
def convFs (w : World) (fs : List String) (input_path : String) : List String :=
  if w.convertProduces then pdf_path input_path :: fs else fs

/-- Result of _convert_to_pdf: the outcome, the external commands run, and
the file system afterwards. -/
structure ConvOut where
  result : Except ConvError String
  cmds : List (List String)
  fs : List String

/-- _convert_to_pdf (helpers.py lines 55-96): resolve the conversion binary,
run the headless conversion command, then check os.path.isfile on the
expected pdf output. -/
def convert_to_pdf (w : World) (fs : List String) (input_path : String) : ConvOut :=
  match w.soffice with
  | Option.none => ⟨.error .unavailable, [], fs⟩
  | some sof =>
    if w.runOk (convCmd sof input_path) then
      let fs2 := convFs w fs input_path
      if fs2.contains (pdf_path input_path) then
        ⟨.ok (pdf_path input_path), [convCmd sof input_path], fs2⟩
      else
        ⟨.error .outputMissing, [convCmd sof input_path], fs2⟩
    else
      ⟨.error .commandFailed, [convCmd sof input_path], fs⟩

/-- World for the success witness of the converter. -/
def conv_world : World where
  fs := ["/tmp/report.docx"]
  guess := fun p =>
    if p = "/tmp/report.docx" then some FileSig.docx
    else if p = "/tmp/photo.png" then some FileSig.png
    else Option.none
  soffice := some "/usr/bin/soffice"
  runOk := fun _ => true
  convertProduces := true
  removeFails := fun _ => false
  allowed_users := PolicyVal.none
  printer_name := Option.none
  page_confirm_limit := 20
  lpstatOut := ""

/-- Exceptions prepare_for_printing raises (helpers.py lines 112-148). -/
inductive PrepError
  | fileNotFound
  | unprintable
  deriving DecidableEq

/-- Result of prepare_for_printing: the outcome, the conversion commands run,
and the file system afterwards. -/
structure PrepOut where
  result : Except PrepError String
  convCmds : List (List String)
  fs : List String

/-- prepare_for_printing (helpers.py lines 99-148): FileNotFoundError when
os.path.isfile fails; a printable signature returns the path unchanged; an
office-document signature invokes _convert_to_pdf, whose failure becomes
UnprintableTypeError; anything else raises UnprintableTypeError. -/
def prepare_for_printing (w : World) (fs : List String) (file_path : String) : PrepOut :=
  if fs.contains file_path = false then ⟨.error .fileNotFound, [], fs⟩
  else
    let file_type := w.guess file_path
    if isPrintableSig file_type then ⟨.ok file_path, [], fs⟩
    else if isDocumentSig file_type then
      let c := convert_to_pdf w fs file_path
      match c.result with
      | .ok pdfp => ⟨.ok pdfp, c.cmds, c.fs⟩
      | .error _ => ⟨.error .unprintable, c.cmds, c.fs⟩
    else ⟨.error .unprintable, [], fs⟩

/-- The lp argument vector (helpers.py lines 161-168): the -d flag followed
by the printer name when a truthy one is supplied, otherwise no flag. -/
def print_file_cmd (file_path : String) (printer_name : Option String) : List String :=
  match printer_name with
  | some n => if n != "" then ["lp", "-d", n, file_path] else ["lp", file_path]
  | Option.none => ["lp", file_path]

/-- Outcome of print_file: normal return or a raised PrintingError. -/
inductive PrintResult
  | ok
  | printingError
  deriving DecidableEq

/-- print_file (helpers.py lines 151-181): build the lp command and run it,
raising PrintingError exactly when the command invocation fails. -/
def print_file (w : World) (file_path : String) (printer_name : Option String) :
    PrintResult :=
  if w.runOk (print_file_cmd file_path printer_name) then .ok else .printingError

/-- Removal of a path from the list file system. -/
def removeAll (fs : List String) (p : String) : List String :=
  fs.filter (fun q => q != p)

/-- os.remove: removes the path, or raises OSError (carrying the unchanged
file system) when the world says removal of this path fails. -/
def osRemove (rf : String → Bool) (fs : List String) (p : String) :
    Except (List String) (List String) :=
  if rf p then .error fs else .ok (removeAll fs p)

/-- Second removal of cleanup's try block (handlers.py lines 193-200):
remove the printable path if truthy, different from the input path, and
existing. -/
def stage2E (rf : String → Bool) (ip pp : Option String) (fs1 : List String) :
    Except (List String) (List String) :=
  match pp with
  | some q =>
    if q ≠ "" ∧ some q ≠ ip ∧ fs1.contains q = true then osRemove rf fs1 q
    else .ok fs1
  | Option.none => .ok fs1

/-- Body of PrintJob.cleanup's try block (handlers.py lines 187-202): remove
the input path if truthy and existing, then the printable path; an error
carries the file system at the raise point and aborts the rest of the
body. -/
def cleanup_body (rf : String → Bool) (ip pp : Option String) (fs : List String) :
    Except (List String) (List String) :=
  match (match ip with
    | some p => if p ≠ "" ∧ fs.contains p = true then osRemove rf fs p else .ok fs
    | Option.none => .ok fs : Except (List String) (List String)) with
  | .error f => .error f
  | .ok fs1 => stage2E rf ip pp fs1

/-- PrintJob.cleanup (handlers.py lines 185-207): the try body with every
exception caught and only logged, so the function always returns. -/
def cleanup (rf : String → Bool) (ip pp : Option String) (fs : List String) :
    List String :=
  match cleanup_body rf ip pp fs with
  | .ok f => f
  | .error f => f

/-- The second removal stage of cleanup as a total function, used to state
the normal form of cleanup. -/
def cleanup_step2 (rf : String → Bool) (ip pp : Option String) (fs1 : List String) :
    List String :=
  match pp with
  | some q =>
    if q ≠ "" ∧ some q ≠ ip ∧ fs1.contains q = true then
      (if rf q then fs1 else removeAll fs1 q)
    else fs1
  | Option.none => fs1

/-- PrintJob state fields touched by the document and photo flows. -/
structure JobState where
  input_path : Option String
  printable_path : Option String
  file_name : Option String
  page_count : Option PyVal
  deriving DecidableEq

/-- Result of process_doc: the job state, the messages sent, the conversion
commands run, the file system afterwards, and the uncaught exception if one
escaped. -/
structure DocOut where
  job : JobState
  msgs : List Msg
  convCmds : List (List String)
  fs : List String
  exn : Option PyErr
  deriving DecidableEq

/-- PrintJob.process_doc (handlers.py lines 77-124): set file_name, download
to /tmp/<file_name>, message the user, call prepare_for_printing inside a
try that catches UnprintableTypeError and FileNotFoundError, and on success
unpack the returned value into (printable_path, page_count) at line 107.
The returned value is a str, so the unpacking binds its two characters when
its length is exactly 2 and raises an uncaught ValueError otherwise. -/
def process_doc (w : World) (fs : List String) (doc_file_name : String) : DocOut :=
  let file_name := doc_file_name
  let input_path := "/tmp/" ++ file_name
  let fs1 := input_path :: fs
  let msgs1 := [Msg.downloading_file, Msg.preparing_file]
  let pr := prepare_for_printing w fs1 input_path
  match pr.result with
  | .error .unprintable =>
    ⟨⟨some input_path, Option.none, some file_name, Option.none⟩,
      msgs1 ++ [Msg.unprintable], pr.convCmds, pr.fs, Option.none⟩
  | .error .fileNotFound =>
    ⟨⟨some input_path, Option.none, some file_name, Option.none⟩,
      msgs1 ++ [Msg.failed], pr.convCmds, pr.fs, Option.none⟩
  | .ok s =>
    match s.toList with
    | [c1, c2] =>
      ⟨⟨some input_path, some (String.mk [c1]), some file_name,
        some (PyVal.str (String.mk [c2]))⟩,
        msgs1, pr.convCmds, pr.fs, Option.none⟩
    | _ =>
      ⟨⟨some input_path, Option.none, some file_name, Option.none⟩,
        msgs1, pr.convCmds, pr.fs, some .valueError⟩

/-- Result of send_to_printer. -/
structure SendOut where
  msgs : List Msg
  lpCmds : List (List String)
  exn : Option PyErr
  deriving DecidableEq

/-- PrintJob.send_to_printer (handlers.py lines 159-183): look up the
printer name, assert printable_path is set (an unset one raises
AssertionError), call print_file and report the outcome, catching only
PrintingError. -/
def send_to_printer (w : World) (j : JobState) : SendOut :=
  match j.printable_path with
  | Option.none => ⟨[], [], some .assertionError⟩
  | some ppath =>
    match print_file w ppath w.printer_name with
    | .printingError =>
      ⟨[Msg.printing_failed], [print_file_cmd ppath w.printer_name], Option.none⟩
    | .ok =>
      ⟨[Msg.sent_to_printer], [print_file_cmd ppath w.printer_name], Option.none⟩

/-- The page-count gate of handle_doc (handlers.py line 251): the Python
expression job.page_count and job.page_count >= 20 with its hardcoded
literal 20; a str page count raises TypeError at the comparison. -/
def page_gate (pc : Option PyVal) : Except PyErr Bool :=
  match pc with
  | Option.none => .ok false
  | some v => if pyTruthy v then pyGeTwenty v else .ok false

/-- Result of a document or photo handler invocation. -/
structure HandleOut where
  msgs : List Msg
  convCmds : List (List String)
  lpCmds : List (List String)
  fs : List String
  exn : Option PyErr
  deriving DecidableEq

/-- handle_doc after process_doc returned (handlers.py lines 250-255): the
page-count gate, then send_to_printer, then cleanup; an uncaught exception
anywhere aborts everything after it. -/
def handle_doc_after_process (w : World) (amsgs : List Msg) (d : DocOut) : HandleOut :=
  match d.exn with
  | some e => ⟨amsgs ++ d.msgs, d.convCmds, [], d.fs, some e⟩
  | Option.none =>
    match page_gate d.job.page_count with
    | .error e => ⟨amsgs ++ d.msgs, d.convCmds, [], d.fs, some e⟩
    | .ok true =>
      ⟨amsgs ++ d.msgs ++ [Msg.page_count_warning], d.convCmds, [], d.fs, Option.none⟩
    | .ok false =>
      let s := send_to_printer w d.job
      match s.exn with
      | some e => ⟨amsgs ++ d.msgs ++ s.msgs, d.convCmds, s.lpCmds, d.fs, some e⟩
      | Option.none =>
        ⟨amsgs ++ d.msgs ++ s.msgs, d.convCmds, s.lpCmds,
          cleanup w.removeFails d.job.input_path d.job.printable_path d.fs,
          Option.none⟩

/-- handle_doc (handlers.py lines 243-256). -/
def handle_doc (w : World) (uid : Int) (doc_file_name : String) : HandleOut :=
  let v := is_user_valid w.allowed_users uid
  if v.1 = false then ⟨v.2, [], [], w.fs, Option.none⟩
  else handle_doc_after_process w v.2 (process_doc w w.fs doc_file_name)

/-- PrintJob.process_photo (handlers.py lines 141-157): download the photo
to /tmp/photo_<id>.jpg, set printable_path to the input path and page_count
to 1; no user message is sent here. -/
def process_photo (fs : List String) (photo_file_id : String) :
    JobState × List String :=
  let file_name := photo_file_id ++ ".jpg"
  let input_path := "/tmp/photo_" ++ file_name
  (⟨some input_path, some input_path, some file_name, some (PyVal.int 1)⟩,
    input_path :: fs)

/-- handle_photo (handlers.py lines 258-266): authorize, download, send to
printer, cleanup; no page gate. -/
def handle_photo (w : World) (uid : Int) (photo_file_id : String) : HandleOut :=
  let v := is_user_valid w.allowed_users uid
  if v.1 = false then ⟨v.2, [], [], w.fs, Option.none⟩
  else
    let pj := process_photo w.fs photo_file_id
    let s := send_to_printer w pj.1
    match s.exn with
    | some e => ⟨v.2 ++ s.msgs, [], s.lpCmds, pj.2, some e⟩
    | Option.none =>
      ⟨v.2 ++ s.msgs, [], s.lpCmds,
        cleanup w.removeFails pj.1.input_path pj.1.printable_path pj.2,
        Option.none⟩

/-- Result of the status and start handlers. -/
structure SimpleOut where
  msgs : List Msg
  cmds : List (List String)
  fs : List String
  deriving DecidableEq

/-- PrintJob.get_status (handlers.py lines 218-240) over get_printing_queue
(helpers.py lines 184-192): run lpstat -o; a command failure becomes
PrinterStatusRetrievalError, caught and reported (the exception class is
imported from bot.exceptions, where its declaration accompanies the ones of
exceptions.py); otherwise report the queue or its emptiness by the output's
truthiness. -/
def get_status (w : World) : List Msg × List (List String) :=
  if w.runOk ["lpstat", "-o"] then
    (if w.lpstatOut != "" then [Msg.print_queue] else [Msg.empty_queue],
      [["lpstat", "-o"]])
  else ([Msg.status_failed], [["lpstat", "-o"]])

/-- status (handlers.py lines 269-275). -/
def status_cmd (w : World) (uid : Int) : SimpleOut :=
  let v := is_user_valid w.allowed_users uid
  if v.1 = false then ⟨v.2, [], w.fs⟩
  else
    let q := get_status w
    ⟨v.2 ++ q.1, q.2, w.fs⟩

/-- start (handlers.py lines 278-284 and 209-216). -/
def start_cmd (w : World) (uid : Int) : SimpleOut :=
  let v := is_user_valid w.allowed_users uid
  if v.1 = false then ⟨v.2, [], w.fs⟩
  else ⟨v.2 ++ [Msg.start], [], w.fs⟩

/-- World of the convertible-document scenario: report.docx carries a valid
office signature, the conversion tool is available and succeeds, printing
succeeds, removals succeed, access is unrestricted. -/
def doc_world : World where
  fs := []
  guess := fun p =>
    if p = "/tmp/report.docx" then some FileSig.docx
    else if p = "/tmp/report.pdf" then some FileSig.pdf
    else Option.none
  soffice := some "/usr/bin/soffice"
  runOk := fun _ => true
  convertProduces := true
  removeFails := fun _ => false
  allowed_users := PolicyVal.none
  printer_name := some "Printer"
  page_confirm_limit := 20
  lpstatOut := ""

/-- World of the unsupported-file scenario: no signature is detected for any
file. -/
def exe_world : World where
  fs := []
  guess := fun _ => Option.none
  soffice := some "/usr/bin/soffice"
  runOk := fun _ => true
  convertProduces := true
  removeFails := fun _ => false
  allowed_users := PolicyVal.none
  printer_name := some "Printer"
  page_confirm_limit := 20
  lpstatOut := ""

/-- Job state after a hypothetical successful preparation with a known page
count of exactly 20, the boundary of the hardcoded gate. -/
def doc20 : DocOut :=
  ⟨⟨some "/tmp/a.pdf", some "/tmp/a.pdf", some "a.pdf", some (PyVal.int 20)⟩,
    [], [], ["/tmp/a.pdf"], Option.none⟩

/-- Job state with a known page count of 25, matching the spec scenario of
a large document. -/
def doc25 : DocOut :=
  ⟨⟨some "/tmp/a.pdf", some "/tmp/a.pdf", some "a.pdf", some (PyVal.int 25)⟩,
    [], [], ["/tmp/a.pdf"], Option.none⟩

/-- World with a configured non-empty policy, for the denial scenarios. -/
def deny_world : World where
  fs := ["/tmp/existing"]
  guess := fun _ => Option.none
  soffice := Option.none
  runOk := fun _ => true
  convertProduces := false
  removeFails := fun _ => false
  allowed_users := PolicyVal.tuple [1, 2]
  printer_name := Option.none
  page_confirm_limit := 20
  lpstatOut := ""

/-- C3: settings.py stores allowed_users, printer_name and page_confirm_limit
only inside Settings.print_context, so for every Settings value build_app
raises AttributeError at the settings.allowed_users read and never returns
a built application, hence no handler is registered. -/
theorem build_app_always_attribute_error (s : Settings) :
    build_app s = Except.error PyErr.attributeError ∧
      ∀ a : App, build_app s ≠ Except.ok a := by
  refine ⟨rfl, ?_⟩
  intro a h
  have h1 : build_app s = Except.error PyErr.attributeError := rfl
  rw [h1] at h
  exact Except.noConfusion h

/-- C4 counterexample: the policy value 0 is present (it is not None) and is
not an iterable, yet is_user_valid allows the request, where the claim
demands a fail-closed denial. -/
theorem is_user_valid_present_non_iterable_allowed :
    is_user_valid (PolicyVal.int 0) 42 = (true, []) ∧
      PolicyVal.int 0 ≠ PolicyVal.none ∧
      policyIterable (PolicyVal.int 0) = false := by
  decide

/-- C4 amended: is_user_valid allows when the policy is absent or Python-falsy
(the number zero, or an empty tuple), denies with the no_auth message when
the policy is truthy but not an iterable, and for a non-empty tuple allows
exactly the members. -/
theorem is_user_valid_spec (uid : Int) :
    is_user_valid PolicyVal.none uid = (true, []) ∧
      is_user_valid (PolicyVal.int 0) uid = (true, []) ∧
      is_user_valid (PolicyVal.tuple []) uid = (true, []) ∧
      (∀ n : Int, n ≠ 0 →
        is_user_valid (PolicyVal.int n) uid = (false, [Msg.no_auth])) ∧
      (∀ l : List Int, l ≠ [] →
        ((is_user_valid (PolicyVal.tuple l) uid).1 = true ↔ uid ∈ l)) := by
  refine ⟨rfl, rfl, rfl, ?_, ?_⟩
  · intro n hn
    simp [is_user_valid, policyTruthy, policyIterable, hn]
  · intro l hl
    by_cases hm : uid ∈ l
    · have hc : l.contains uid = true := List.elem_iff.mpr hm
      simp [is_user_valid, policyTruthy, policyIterable, policyContains, hl, hc, hm]
    · have hc : l.contains uid = false := by
        rw [Bool.eq_false_iff]
        intro h
        exact hm (List.elem_iff.mp h)
      simp [is_user_valid, policyTruthy, policyIterable, policyContains, hl, hc, hm]

theorem is_user_valid_spec_check :
    is_user_valid (PolicyVal.int 5) 42 = (false, [Msg.no_auth]) ∧
      (is_user_valid (PolicyVal.tuple [41, 42]) 42).1 = true := by
  have h := is_user_valid_spec 42
  exact ⟨h.2.2.2.1 5 (by decide), (h.2.2.2.2 [41, 42] (by decide)).2 (by decide)⟩

theorem splitAtLastChar_none_of_not_mem {c : Char} {l : List Char} (h : c ∉ l) :
    splitAtLastChar c l = Option.none := by
  induction l with
  | nil => rfl
  | cons x xs ih =>
    simp only [List.mem_cons, not_or] at h
    obtain ⟨hx, hxs⟩ := h
    have hx2 : ¬ x = c := fun hxe => hx hxe.symm
    simp [splitAtLastChar, ih hxs, hx2]

theorem not_mem_of_splitAtLastChar_none {c : Char} {l : List Char}
    (h : splitAtLastChar c l = Option.none) : c ∉ l := by
  induction l with
  | nil => simp
  | cons x xs ih =>
    rw [splitAtLastChar] at h
    cases h2 : splitAtLastChar c xs with
    | none =>
      rw [h2] at h
      by_cases hx : x = c
      · rw [if_pos hx] at h
        exact absurd h (by simp)
      · intro hmem
        rcases List.mem_cons.mp hmem with h3 | h3
        · exact hx h3.symm
        · exact ih h2 h3
    | some p =>
      rw [h2] at h
      exact absurd h (by simp)

theorem splitAtLastChar_eq_some {c : Char} {l b a : List Char}
    (h : splitAtLastChar c l = some (b, a)) : l = b ++ c :: a ∧ c ∉ a := by
  induction l generalizing b a with
  | nil => exact absurd h (by simp [splitAtLastChar])
  | cons x xs ih =>
    rw [splitAtLastChar] at h
    cases h2 : splitAtLastChar c xs with
    | none =>
      rw [h2] at h
      by_cases hx : x = c
      · rw [if_pos hx] at h
        have hba := Option.some.inj h
        have hb : b = [] := (Prod.mk.injEq _ _ _ _ ▸ hba).1.symm
        have ha : a = xs := (Prod.mk.injEq _ _ _ _ ▸ hba).2.symm
        subst hb
        subst ha
        subst hx
        exact ⟨rfl, not_mem_of_splitAtLastChar_none h2⟩
      · rw [if_neg hx] at h
        exact absurd h (by simp)
    | some p =>
      rw [h2] at h
      obtain ⟨b2, a2⟩ := p
      have hba := Option.some.inj h
      have hb : x :: b2 = b := (Prod.mk.injEq _ _ _ _ ▸ hba).1
      have ha : a2 = a := (Prod.mk.injEq _ _ _ _ ▸ hba).2
      subst hb
      subst ha
      obtain ⟨hdec, hmem⟩ := ih h2
      exact ⟨by rw [List.cons_append, ← hdec], hmem⟩

theorem splitAtLastChar_append_some {c : Char} {zs b a : List Char} (xs : List Char)
    (h : splitAtLastChar c zs = some (b, a)) :
    splitAtLastChar c (xs ++ zs) = some (xs ++ b, a) := by
  induction xs with
  | nil => simpa using h
  | cons x xs2 ih =>
    rw [List.cons_append, splitAtLastChar, ih]
    rfl

theorem splitAtLastChar_cons_self_of_not_mem {c : Char} {ys : List Char} (h : c ∉ ys) :
    splitAtLastChar c (c :: ys) = some ([], ys) := by
  rw [splitAtLastChar, splitAtLastChar_none_of_not_mem h]
  simp

theorem dirnameList_splitext_append {l ys : List Char} (hy : '/' ∉ ys) :
    dirnameList ((splitextList l).1 ++ ys) = dirnameList l := by
  cases hs : splitAtLastChar '/' l with
  | none =>
    have hnl : '/' ∉ l := not_mem_of_splitAtLastChar_none hs
    have hout : ∀ zs : List Char, '/' ∉ zs → dirnameList (zs ++ ys) = [] := by
      intro zs hz
      have : '/' ∉ zs ++ ys := by
        intro hm
        rcases List.mem_append.mp hm with hm1 | hm1
        · exact hz hm1
        · exact hy hm1
      simp [dirnameList, splitAtLastChar_none_of_not_mem this]
    have hL : dirnameList l = [] := by simp [dirnameList, hs]
    cases hd : splitAtLastChar '.' l with
    | none =>
      have h1 : (splitextList l).1 = l := by simp [splitextList, hs, hd]
      rw [h1, hout l hnl, hL]
    | some p =>
      obtain ⟨b, a⟩ := p
      obtain ⟨hdec, _⟩ := splitAtLastChar_eq_some hd
      have hnb : '/' ∉ b := by
        intro hm
        exact hnl (hdec ▸ List.mem_append.mpr (Or.inl hm))
      by_cases hany : b.any (fun ch => ch != '.') = true
      · have h1 : (splitextList l).1 = b := by simp [splitextList, hs, hd, hany]
        rw [h1, hout b hnb, hL]
      · have h1 : (splitextList l).1 = l := by simp [splitextList, hs, hd, hany]
        rw [h1, hout l hnl, hL]
  | some p =>
    obtain ⟨dd, base⟩ := p
    obtain ⟨hdec, hnb⟩ := splitAtLastChar_eq_some hs
    have hout : ∀ zs : List Char, '/' ∉ zs →
        dirnameList (dd ++ '/' :: zs) = dirnameList l := by
      intro zs hz
      have h2 : splitAtLastChar '/' (dd ++ '/' :: zs) = some (dd ++ [], zs) :=
        splitAtLastChar_append_some dd (splitAtLastChar_cons_self_of_not_mem hz)
      rw [List.append_nil] at h2
      simp only [dirnameList, h2, hs]
    cases hd : splitAtLastChar '.' base with
    | none =>
      have h1 : (splitextList l).1 = l := by simp [splitextList, hs, hd]
      have hre : l ++ ys = dd ++ '/' :: (base ++ ys) := by
        rw [hdec, List.append_assoc, List.cons_append]
      have hzy : '/' ∉ base ++ ys := by
        intro hm
        rcases List.mem_append.mp hm with hm1 | hm1
        · exact hnb hm1
        · exact hy hm1
      rw [h1, hre, hout (base ++ ys) hzy]
    | some q =>
      obtain ⟨b, a⟩ := q
      obtain ⟨hdec2, _⟩ := splitAtLastChar_eq_some hd
      have hnb2 : '/' ∉ b := by
        intro hm
        exact hnb (hdec2 ▸ List.mem_append.mpr (Or.inl hm))
      by_cases hany : b.any (fun ch => ch != '.') = true
      · have h1 : (splitextList l).1 = (dd ++ ['/']) ++ b := by
          simp [splitextList, hs, hd, hany]
        have hre : ((dd ++ ['/']) ++ b) ++ ys = dd ++ '/' :: (b ++ ys) := by
          simp [List.append_assoc]
        have hzy : '/' ∉ b ++ ys := by
          intro hm
          rcases List.mem_append.mp hm with hm1 | hm1
          · exact hnb2 hm1
          · exact hy hm1
        rw [h1, hre, hout (b ++ ys) hzy]
      · have h1 : (splitextList l).1 = l := by simp [splitextList, hs, hd, hany]
        have hre : l ++ ys = dd ++ '/' :: (base ++ ys) := by
          rw [hdec, List.append_assoc, List.cons_append]
        have hzy : '/' ∉ base ++ ys := by
          intro hm
          rcases List.mem_append.mp hm with hm1 | hm1
          · exact hnb hm1
          · exact hy hm1
        rw [h1, hre, hout (base ++ ys) hzy]

theorem dirname_pdf_path (s : String) : dirname (pdf_path s) = dirname s := by
  have h1 : (pdf_path s).toList = (splitextList s.toList).1 ++ ".pdf".toList := by
    simp [pdf_path, splitext, String.toList]
  have h2 : '/' ∉ ".pdf".toList := by decide
  simp only [dirname, h1, dirnameList_splitext_append h2]

/-- C7: the converter fails with the unavailable error when no conversion
binary resolves on the path, fails with the command-failed error when the
tool exits non-zero, fails with the missing-output error when the tool
succeeds but the expected pdf is absent, and on success returns the input
path with its extension replaced by .pdf, a path lying in the input's own
directory. -/
theorem convert_to_pdf_spec (w : World) (fs : List String) (p : String) :
    (w.soffice = Option.none →
      convert_to_pdf w fs p = ⟨.error .unavailable, [], fs⟩) ∧
    (∀ sof, w.soffice = some sof →
      (w.runOk (convCmd sof p) = false →
        convert_to_pdf w fs p = ⟨.error .commandFailed, [convCmd sof p], fs⟩) ∧
      (w.runOk (convCmd sof p) = true →
        ((convFs w fs p).contains (pdf_path p) = false →
          convert_to_pdf w fs p =
            ⟨.error .outputMissing, [convCmd sof p], convFs w fs p⟩) ∧
        ((convFs w fs p).contains (pdf_path p) = true →
          convert_to_pdf w fs p =
            ⟨.ok (pdf_path p), [convCmd sof p], convFs w fs p⟩))) ∧
    pdf_path p = (splitext p).1 ++ ".pdf" ∧
    dirname (pdf_path p) = dirname p := by
  refine ⟨?_, ?_, rfl, dirname_pdf_path p⟩
  · intro h
    simp [convert_to_pdf, h]
  · intro sof hsof
    refine ⟨?_, ?_⟩
    · intro hrun
      simp [convert_to_pdf, hsof, hrun]
    · intro hrun
      refine ⟨?_, ?_⟩
      · intro hmiss
        have hm2 : pdf_path p ∉ convFs w fs p := by
          intro hm
          have h5 : (convFs w fs p).contains (pdf_path p) = true := List.elem_iff.mpr hm
          rw [h5] at hmiss
          exact Bool.noConfusion hmiss
        simp [convert_to_pdf, hsof, hrun, hm2]
      · intro hhit
        have hh2 : pdf_path p ∈ convFs w fs p := List.elem_iff.mp hhit
        simp [convert_to_pdf, hsof, hrun, hh2]

theorem convert_to_pdf_spec_check :
    convert_to_pdf conv_world ["/tmp/report.docx"] "/tmp/report.docx" =
      ⟨.ok "/tmp/report.pdf",
        [convCmd "/usr/bin/soffice" "/tmp/report.docx"],
        ["/tmp/report.pdf", "/tmp/report.docx"]⟩ := by
  have h := convert_to_pdf_spec conv_world ["/tmp/report.docx"] "/tmp/report.docx"
  have h2 := ((h.2.1 "/usr/bin/soffice" rfl).2 (by decide)).2 (by decide)
  have h3 : pdf_path "/tmp/report.docx" = "/tmp/report.pdf" := by decide
  have h4 : convFs conv_world ["/tmp/report.docx"] "/tmp/report.docx" =
      ["/tmp/report.pdf", "/tmp/report.docx"] := by decide
  rw [h3, h4] at h2
  exact h2

theorem mem_removeAll {fs : List String} {p q : String} :
    q ∈ removeAll fs p ↔ q ∈ fs ∧ q ≠ p := by
  simp [removeAll, List.mem_filter]

theorem contains_removeAll_self (fs : List String) (p : String) :
    (removeAll fs p).contains p = false := by
  rw [Bool.eq_false_iff]
  intro h
  exact (mem_removeAll.mp (List.elem_iff.mp h)).2 rfl

theorem contains_false_removeAll {fs : List String} {p q : String}
    (h : fs.contains q = false) : (removeAll fs p).contains q = false := by
  rw [Bool.eq_false_iff]
  intro hcon
  have hm := (mem_removeAll.mp (List.elem_iff.mp hcon)).1
  have : fs.contains q = true := List.elem_iff.mpr hm
  rw [this] at h
  exact Bool.noConfusion h

theorem stage2E_run (rf : String → Bool) (ip pp : Option String) (fs1 : List String) :
    (match stage2E rf ip pp fs1 with
      | Except.ok f => f
      | Except.error f => f) = cleanup_step2 rf ip pp fs1 := by
  rcases pp with _ | q
  · rfl
  · simp only [stage2E, cleanup_step2]
    by_cases hc : q ≠ "" ∧ some q ≠ ip ∧ fs1.contains q = true
    · rw [if_pos hc, if_pos hc]
      simp only [osRemove]
      by_cases hr : rf q
      · rw [if_pos hr, if_pos hr]
      · rw [if_neg hr, if_neg hr]
    · rw [if_neg hc, if_neg hc]

theorem cleanup_eq_none (rf : String → Bool) (pp : Option String) (fs : List String) :
    cleanup rf Option.none pp fs = cleanup_step2 rf Option.none pp fs := by
  have h1 : cleanup_body rf Option.none pp fs = stage2E rf Option.none pp fs := rfl
  show (match cleanup_body rf Option.none pp fs with
    | Except.ok f => f
    | Except.error f => f) = cleanup_step2 rf Option.none pp fs
  rw [h1, stage2E_run]

theorem cleanup_eq_some (rf : String → Bool) (p : String) (pp : Option String)
    (fs : List String) :
    cleanup rf (some p) pp fs =
      (if p ≠ "" ∧ fs.contains p = true then
        (if rf p then fs else cleanup_step2 rf (some p) pp (removeAll fs p))
      else cleanup_step2 rf (some p) pp fs) := by
  by_cases hp : p ≠ "" ∧ fs.contains p = true
  · have h1 : cleanup_body rf (some p) pp fs =
        (match osRemove rf fs p with
          | Except.error f => Except.error f
          | Except.ok fs1 => stage2E rf (some p) pp fs1) := by
      simp only [cleanup_body]
      rw [if_pos hp]
    by_cases hr : rf p
    · have h2 : osRemove rf fs p = Except.error fs := by
        simp only [osRemove]
        rw [if_pos hr]
      show (match cleanup_body rf (some p) pp fs with
        | Except.ok f => f
        | Except.error f => f) =
          (if p ≠ "" ∧ fs.contains p = true then
            (if rf p then fs else cleanup_step2 rf (some p) pp (removeAll fs p))
          else cleanup_step2 rf (some p) pp fs)
      rw [h1, h2, if_pos hp, if_pos hr]
    · have h2 : osRemove rf fs p = Except.ok (removeAll fs p) := by
        simp only [osRemove]
        rw [if_neg hr]
      show (match cleanup_body rf (some p) pp fs with
        | Except.ok f => f
        | Except.error f => f) =
          (if p ≠ "" ∧ fs.contains p = true then
            (if rf p then fs else cleanup_step2 rf (some p) pp (removeAll fs p))
          else cleanup_step2 rf (some p) pp fs)
      rw [h1, h2, if_pos hp, if_neg hr]
      exact stage2E_run rf (some p) pp (removeAll fs p)
  · have h1 : cleanup_body rf (some p) pp fs = stage2E rf (some p) pp fs := by
      simp only [cleanup_body]
      rw [if_neg hp]
    show (match cleanup_body rf (some p) pp fs with
      | Except.ok f => f
      | Except.error f => f) =
        (if p ≠ "" ∧ fs.contains p = true then
          (if rf p then fs else cleanup_step2 rf (some p) pp (removeAll fs p))
        else cleanup_step2 rf (some p) pp fs)
    rw [h1, if_neg hp, stage2E_run]

theorem cleanup_step2_idem (rf : String → Bool) (ip pp : Option String)
    (fs1 : List String) :
    cleanup_step2 rf ip pp (cleanup_step2 rf ip pp fs1) =
      cleanup_step2 rf ip pp fs1 := by
  rcases pp with _ | q
  · rfl
  · by_cases hc : q ≠ "" ∧ some q ≠ ip ∧ fs1.contains q = true
    · by_cases hr : rf q
      · have h1 : cleanup_step2 rf ip (some q) fs1 = fs1 := by
          simp only [cleanup_step2]
          rw [if_pos hc, if_pos hr]
        rw [h1]
        exact h1
      · have h1 : cleanup_step2 rf ip (some q) fs1 = removeAll fs1 q := by
          simp only [cleanup_step2]
          rw [if_pos hc, if_neg hr]
        rw [h1]
        have h2 : ¬ (q ≠ "" ∧ some q ≠ ip ∧ (removeAll fs1 q).contains q = true) := by
          intro h3
          have h4 := h3.2.2
          rw [contains_removeAll_self] at h4
          exact Bool.noConfusion h4
        simp only [cleanup_step2]
        rw [if_neg h2]
    · have h1 : cleanup_step2 rf ip (some q) fs1 = fs1 := by
        simp only [cleanup_step2]
        rw [if_neg hc]
      rw [h1]
      exact h1

theorem cleanup_step2_contains_false (rf : String → Bool) (ip pp : Option String)
    {fs1 : List String} {x : String} (h : fs1.contains x = false) :
    (cleanup_step2 rf ip pp fs1).contains x = false := by
  rcases pp with _ | q
  · exact h
  · simp only [cleanup_step2]
    split_ifs with hc hr
    · exact h
    · exact contains_false_removeAll h
    · exact h

theorem cleanup_step2_mem_subset (rf : String → Bool) (ip pp : Option String)
    {fs1 : List String} {x : String} (h : x ∈ cleanup_step2 rf ip pp fs1) :
    x ∈ fs1 := by
  rcases pp with _ | q
  · exact h
  · simp only [cleanup_step2] at h
    split_ifs at h with hc hr
    · exact h
    · exact (mem_removeAll.mp h).1
    · exact h

theorem cleanup_step2_removed (rf : String → Bool) (ip pp : Option String)
    {fs1 : List String} {x : String} (hm : x ∈ fs1)
    (h : x ∉ cleanup_step2 rf ip pp fs1) :
    pp = some x ∧ some x ≠ ip := by
  rcases pp with _ | q
  · exact absurd hm h
  · simp only [cleanup_step2] at h
    split_ifs at h with hc hr
    · exact absurd hm h
    · have hx : x = q := by
        by_contra hne
        exact h (mem_removeAll.mpr ⟨hm, hne⟩)
      subst hx
      exact ⟨rfl, hc.2.1⟩
    · exact absurd hm h

theorem cleanup_step2_all_fail (ip pp : Option String) (fs1 : List String) :
    cleanup_step2 (fun _ => true) ip pp fs1 = fs1 := by
  rcases pp with _ | q
  · rfl
  · simp only [cleanup_step2]
    split_ifs <;> rfl

/-- C5: prepare_for_printing raises FileNotFoundError exactly when no file
exists at the path, and otherwise decides solely from the detected binary
signature, whatever the path and its extension: a pdf or recognised raster
signature returns the path as print-ready with no conversion, a recognised
office-document signature classifies as convertible and hands off to the
converter, and any other or undetected signature raises the
unsupported-type error. -/
theorem prepare_for_printing_spec (w : World) (fs : List String) (p : String) :
    ((prepare_for_printing w fs p).result = .error .fileNotFound ↔
      fs.contains p = false) ∧
    (fs.contains p = true →
      (isPrintableSig (w.guess p) = true →
        classify (w.guess p) = .printableAsIs ∧
        prepare_for_printing w fs p = ⟨.ok p, [], fs⟩) ∧
      (isDocumentSig (w.guess p) = true ∧ isPrintableSig (w.guess p) = false →
        classify (w.guess p) = .convertibleDocument ∧
        prepare_for_printing w fs p =
          ⟨(match (convert_to_pdf w fs p).result with
            | .ok q => .ok q
            | .error _ => .error .unprintable),
            (convert_to_pdf w fs p).cmds, (convert_to_pdf w fs p).fs⟩) ∧
      (isPrintableSig (w.guess p) = false ∧ isDocumentSig (w.guess p) = false →
        classify (w.guess p) = .unsupported ∧
        prepare_for_printing w fs p = ⟨.error .unprintable, [], fs⟩)) := by
  constructor
  · cases hc : fs.contains p with
    | false =>
      have hm : p ∉ fs := by
        intro hmem
        have h9 : fs.contains p = true := List.elem_iff.mpr hmem
        rw [h9] at hc
        exact Bool.noConfusion hc
      constructor
      · intro _
        rfl
      · intro _
        simp [prepare_for_printing, hc, hm]
    | true =>
      have hm : p ∈ fs := List.elem_iff.mp hc
      constructor
      · intro h
        by_cases hp : isPrintableSig (w.guess p) = true
        · simp [prepare_for_printing, hc, hm, hp] at h
        · by_cases hd : isDocumentSig (w.guess p) = true
          · simp only [prepare_for_printing, hc, hm, hp, hd] at h
            cases hr : (convert_to_pdf w fs p).result with
            | ok q => simp [hr, hm] at h
            | error e => simp [hr, hm] at h
          · simp [prepare_for_printing, hc, hm, hp, hd] at h
      · intro h
        exact absurd h (by simp)
  · intro hc
    have hm : p ∈ fs := List.elem_iff.mp hc
    refine ⟨?_, ?_, ?_⟩
    · intro hp
      exact ⟨by simp [classify, hp], by simp [prepare_for_printing, hc, hm, hp]⟩
    · rintro ⟨hd, hp⟩
      refine ⟨by simp [classify, hp, hd], ?_⟩
      simp only [prepare_for_printing, hc, hp, hd]
      cases hr : (convert_to_pdf w fs p).result with
      | ok q => simp [hr, hm]
      | error e => simp [hr, hm]
    · rintro ⟨hp, hd⟩
      exact ⟨by simp [classify, hp, hd], by simp [prepare_for_printing, hc, hm, hp, hd]⟩

theorem prepare_for_printing_spec_check :
    prepare_for_printing conv_world ["/tmp/photo.png"] "/tmp/photo.png" =
      ⟨.ok "/tmp/photo.png", [], ["/tmp/photo.png"]⟩ ∧
    prepare_for_printing conv_world ["/tmp/x.bin"] "/tmp/x.bin" =
      ⟨.error .unprintable, [], ["/tmp/x.bin"]⟩ := by
  have h1 := prepare_for_printing_spec conv_world ["/tmp/photo.png"] "/tmp/photo.png"
  have h2 := prepare_for_printing_spec conv_world ["/tmp/x.bin"] "/tmp/x.bin"
  exact ⟨((h1.2 (by decide)).1 (by decide)).2,
    ((h2.2 (by decide)).2.2 ⟨by decide, by decide⟩).2⟩

/-- C8: with a truthy printer name the lp argument vector is lp -d name
path, so the printer name appears immediately before the file path and
immediately after the -d flag; without a printer name the vector is lp path
with no -d flag inserted; and print_file raises PrintingError exactly when
the command invocation fails. -/
theorem print_file_spec :
    (∀ path n : String, n ≠ "" →
      print_file_cmd path (some n) = ["lp", "-d", n, path]) ∧
    (∀ path : String, print_file_cmd path Option.none = ["lp", path] ∧
      (path ≠ "-d" → "-d" ∉ print_file_cmd path Option.none)) ∧
    (∀ (w : World) (path : String) (pn : Option String),
      print_file w path pn = .printingError ↔
        w.runOk (print_file_cmd path pn) = false) := by
  refine ⟨?_, ?_, ?_⟩
  · intro path n hn
    simp [print_file_cmd, hn]
  · intro path
    refine ⟨rfl, ?_⟩
    intro hp hm
    rw [show print_file_cmd path Option.none = ["lp", path] from rfl] at hm
    rcases List.mem_cons.mp hm with h1 | h1
    · exact absurd h1 (by decide)
    · rcases List.mem_cons.mp h1 with h2 | h2
      · exact hp h2.symm
      · exact absurd h2 (List.not_mem_nil _)
  · intro w path pn
    cases hr : w.runOk (print_file_cmd path pn) with
    | true => simp [print_file, hr]
    | false => simp [print_file, hr]

theorem print_file_spec_check :
    print_file_cmd "/tmp/a.pdf" (some "HP") = ["lp", "-d", "HP", "/tmp/a.pdf"] ∧
      "-d" ∉ print_file_cmd "/tmp/a.pdf" Option.none := by
  exact ⟨print_file_spec.1 "/tmp/a.pdf" "HP" (by decide),
    (print_file_spec.2.1 "/tmp/a.pdf").2 (by decide)⟩

/-- C9: cleanup is idempotent (a second call removes nothing further and
changes nothing), removes only entries that existed and that the job set
(the input path, or the printable path when distinct from the input), never
adds entries, and swallows removal failures: when every removal raises,
cleanup still returns normally with the file system unchanged. -/
theorem cleanup_spec :
    (∀ (rf : String → Bool) (ip pp : Option String) (fs : List String),
      cleanup rf ip pp (cleanup rf ip pp fs) = cleanup rf ip pp fs) ∧
    (∀ (rf : String → Bool) (ip pp : Option String) (fs : List String) (p : String),
      p ∈ fs → p ∉ cleanup rf ip pp fs →
        ip = some p ∨ (pp = some p ∧ ip ≠ some p)) ∧
    (∀ (rf : String → Bool) (ip pp : Option String) (fs : List String) (p : String),
      p ∈ cleanup rf ip pp fs → p ∈ fs) ∧
    (∀ (ip pp : Option String) (fs : List String),
      cleanup (fun _ => true) ip pp fs = fs) := by
  refine ⟨?_, ?_, ?_, ?_⟩
  · intro rf ip pp fs
    rcases ip with _ | p
    · rw [cleanup_eq_none, cleanup_eq_none, cleanup_step2_idem]
    · by_cases hp : p ≠ "" ∧ fs.contains p = true
      · by_cases hr : rf p
        · have h1 : cleanup rf (some p) pp fs = fs := by
            rw [cleanup_eq_some, if_pos hp, if_pos hr]
          rw [h1]
          exact h1
        · have h1 : cleanup rf (some p) pp fs =
              cleanup_step2 rf (some p) pp (removeAll fs p) := by
            rw [cleanup_eq_some, if_pos hp, if_neg hr]
          rw [h1, cleanup_eq_some]
          have h2 : (cleanup_step2 rf (some p) pp (removeAll fs p)).contains p = false :=
            cleanup_step2_contains_false rf (some p) pp (contains_removeAll_self fs p)
          have h3 : ¬ (p ≠ "" ∧
              (cleanup_step2 rf (some p) pp (removeAll fs p)).contains p = true) := by
            intro h4
            rw [h2] at h4
            exact Bool.noConfusion h4.2
          rw [if_neg h3, cleanup_step2_idem]
      · have h1 : cleanup rf (some p) pp fs = cleanup_step2 rf (some p) pp fs := by
          rw [cleanup_eq_some, if_neg hp]
        rw [h1, cleanup_eq_some]
        have h3 : ¬ (p ≠ "" ∧ (cleanup_step2 rf (some p) pp fs).contains p = true) := by
          rcases not_and_or.mp hp with h4 | h4
          · intro h5
            exact h4 h5.1
          · have h6 : fs.contains p = false := by
              cases h7 : fs.contains p with
              | false => rfl
              | true => exact absurd h7 h4
            have h8 := cleanup_step2_contains_false rf (some p) pp h6
            intro h5
            rw [h8] at h5
            exact Bool.noConfusion h5.2
        rw [if_neg h3, cleanup_step2_idem]
  · intro rf ip pp fs p hmem hnot
    rcases ip with _ | p0
    · rw [cleanup_eq_none] at hnot
      have h5 := cleanup_step2_removed rf Option.none pp hmem hnot
      exact Or.inr ⟨h5.1, fun h6 => Option.noConfusion h6⟩
    · rw [cleanup_eq_some] at hnot
      by_cases hp : p0 ≠ "" ∧ fs.contains p0 = true
      · rw [if_pos hp] at hnot
        by_cases hr : rf p0
        · rw [if_pos hr] at hnot
          exact absurd hmem hnot
        · rw [if_neg hr] at hnot
          by_cases he : p = p0
          · exact Or.inl (by rw [he])
          · have hm2 : p ∈ removeAll fs p0 := mem_removeAll.mpr ⟨hmem, he⟩
            have h5 := cleanup_step2_removed rf (some p0) pp hm2 hnot
            refine Or.inr ⟨h5.1, ?_⟩
            intro h6
            rw [h6] at h5
            exact h5.2 rfl
      · rw [if_neg hp] at hnot
        have h5 := cleanup_step2_removed rf (some p0) pp hmem hnot
        refine Or.inr ⟨h5.1, ?_⟩
        intro h6
        rw [h6] at h5
        exact h5.2 rfl
  · intro rf ip pp fs p hmem
    rcases ip with _ | p0
    · rw [cleanup_eq_none] at hmem
      exact cleanup_step2_mem_subset rf Option.none pp hmem
    · rw [cleanup_eq_some] at hmem
      by_cases hp : p0 ≠ "" ∧ fs.contains p0 = true
      · rw [if_pos hp] at hmem
        by_cases hr : rf p0
        · rw [if_pos hr] at hmem
          exact hmem
        · rw [if_neg hr] at hmem
          exact (mem_removeAll.mp (cleanup_step2_mem_subset rf (some p0) pp hmem)).1
      · rw [if_neg hp] at hmem
        exact cleanup_step2_mem_subset rf (some p0) pp hmem
  · intro ip pp fs
    rcases ip with _ | p0
    · rw [cleanup_eq_none]
      exact cleanup_step2_all_fail Option.none pp fs
    · rw [cleanup_eq_some]
      by_cases hp : p0 ≠ "" ∧ fs.contains p0 = true
      · rw [if_pos hp, if_pos rfl]
      · rw [if_neg hp]
        exact cleanup_step2_all_fail (some p0) pp fs

theorem cleanup_spec_check :
    ("/tmp/a.pdf" ∈ (["/tmp/a.docx", "/tmp/a.pdf", "/tmp/b"] : List String)) ∧
    ("/tmp/a.pdf" ∉ cleanup (fun _ => false) (some "/tmp/a.docx") (some "/tmp/a.pdf")
      ["/tmp/a.docx", "/tmp/a.pdf", "/tmp/b"]) ∧
    (some "/tmp/a.docx" = some "/tmp/a.pdf" ∨
      ((some "/tmp/a.pdf" : Option String) = some "/tmp/a.pdf" ∧
        (some "/tmp/a.docx" : Option String) ≠ some "/tmp/a.pdf")) := by
  refine ⟨by decide, by decide, ?_⟩
  exact cleanup_spec.2.1 (fun _ => false) (some "/tmp/a.docx") (some "/tmp/a.pdf")
    ["/tmp/a.docx", "/tmp/a.pdf", "/tmp/b"] "/tmp/a.pdf" (by decide) (by decide)

/-- C1: on the convertible-document success scenario the claim expects
submission, the success message and removal of both files; the code instead
dies with an uncaught ValueError while unpacking the single string returned
by prepare_for_printing into (printable_path, page_count), after the
conversion already produced /tmp/report.pdf: no lp command runs, no success
message is sent, no cleanup happens, and both files stay on disk. -/
theorem handle_doc_convertible_crashes :
    (handle_doc doc_world 7 "report.docx").exn = some PyErr.valueError ∧
    (handle_doc doc_world 7 "report.docx").lpCmds = [] ∧
    Msg.sent_to_printer ∉ (handle_doc doc_world 7 "report.docx").msgs ∧
    (handle_doc doc_world 7 "report.docx").fs.contains "/tmp/report.docx" = true ∧
    (handle_doc doc_world 7 "report.docx").fs.contains "/tmp/report.pdf" = true ∧
    (handle_doc doc_world 7 "report.docx").convCmds ≠ [] := by
  decide

/-- C2: on the unsupported-file scenario the user is told the type is
unsupported and neither conversion nor submission happens, but the claim
also expects the downloaded file to be removed; instead handle_doc
continues into send_to_printer, whose assert on printable_path raises
AssertionError before cleanup ever runs, so /tmp/malware.exe stays on
disk. -/
theorem handle_doc_unsupported_keeps_file :
    Msg.unprintable ∈ (handle_doc exe_world 7 "malware.exe").msgs ∧
    (handle_doc exe_world 7 "malware.exe").convCmds = [] ∧
    (handle_doc exe_world 7 "malware.exe").lpCmds = [] ∧
    (handle_doc exe_world 7 "malware.exe").exn = some PyErr.assertionError ∧
    (handle_doc exe_world 7 "malware.exe").fs.contains "/tmp/malware.exe" = true := by
  decide

/-- C6 counterexample: with the default threshold (PAGE_CONFIRM_LIMIT unset
parses to 20) a page count of exactly 20 does not exceed the threshold, so
the claim requires proceeding straight to submission; the code instead
halts at the confirmation warning and submits nothing, because the gate
tests page_count >= 20 against the hardcoded literal 20. -/
theorem page_gate_boundary_halts :
    validate_int Option.none 20 = 20 ∧
    ¬ ((20 : Int) > 20) ∧
    (handle_doc_after_process doc_world [] doc20).msgs = [Msg.page_count_warning] ∧
    (handle_doc_after_process doc_world [] doc20).lpCmds = [] ∧
    (handle_doc_after_process doc_world [] doc20).fs = ["/tmp/a.pdf"] := by
  decide

theorem send_to_printer_some (w : World) (j : JobState) (ppath : String)
    (hpp : j.printable_path = some ppath) :
    (send_to_printer w j).exn = Option.none ∧
    (send_to_printer w j).lpCmds = [print_file_cmd ppath w.printer_name] := by
  simp only [send_to_printer, hpp]
  cases print_file w ppath w.printer_name <;> simp

/-- C6 amended: for a job whose page count is a known int n, handle_doc
halts at the confirmation warning with no submission and no cleanup iff n
is nonzero and n >= 20, where 20 is the literal hardcoded in the handler;
otherwise it proceeds directly to submission. The PAGE_CONFIRM_LIMIT
setting is parsed with default 20 but never consulted: the outcome is
identical under any configured limit. -/
theorem page_gate_spec (w : World) (amsgs : List Msg) (d : DocOut) (n : Int)
    (ppath : String) (hexn : d.exn = Option.none)
    (hpc : d.job.page_count = some (PyVal.int n))
    (hpp : d.job.printable_path = some ppath) :
    (n ≠ 0 ∧ n ≥ 20 →
      handle_doc_after_process w amsgs d =
        ⟨amsgs ++ d.msgs ++ [Msg.page_count_warning], d.convCmds, [], d.fs,
          Option.none⟩) ∧
    (¬ (n ≠ 0 ∧ n ≥ 20) →
      (handle_doc_after_process w amsgs d).lpCmds =
        [print_file_cmd ppath w.printer_name]) ∧
    (∀ l1 l2 : Int,
      handle_doc_after_process { w with page_confirm_limit := l1 } amsgs d =
        handle_doc_after_process { w with page_confirm_limit := l2 } amsgs d) := by
  refine ⟨?_, ?_, fun l1 l2 => rfl⟩
  · rintro ⟨hn0, hn20⟩
    have hg : page_gate d.job.page_count = .ok true := by
      rw [hpc]
      simp [page_gate, pyTruthy, pyGeTwenty, hn0, hn20]
    simp [handle_doc_after_process, hexn, hg]
  · intro hno
    have hg : page_gate d.job.page_count = .ok false := by
      rw [hpc]
      by_cases hz : n = 0
      · simp [page_gate, pyTruthy, hz]
      · have h20 : ¬ n ≥ 20 := fun h => hno ⟨hz, h⟩
        simp [page_gate, pyTruthy, pyGeTwenty, hz, h20]
    have hs := send_to_printer_some w d.job ppath hpp
    simp [handle_doc_after_process, hexn, hg, hs.1, hs.2]

theorem page_gate_spec_check :
    handle_doc_after_process doc_world [] doc25 =
      ⟨[Msg.page_count_warning], [], [], ["/tmp/a.pdf"], Option.none⟩ := by
  have h := page_gate_spec doc_world [] doc25 25 "/tmp/a.pdf" rfl rfl rfl
  have h2 := h.1 ⟨by decide, by decide⟩
  simpa using h2

/-- C10: for a principal absent from a configured non-empty tuple policy,
every entry point (document, photo, status, start) replies only the denial
message, runs no external command and leaves the file system untouched: no
download happens and no local artifact is created for the denied
request. -/
theorem deny_before_download (w : World) (uid : Int) (l : List Int)
    (name fid : String) (hpol : w.allowed_users = PolicyVal.tuple l)
    (hne : l ≠ []) (hmem : uid ∉ l) :
    handle_doc w uid name = ⟨[Msg.no_auth], [], [], w.fs, Option.none⟩ ∧
    handle_photo w uid fid = ⟨[Msg.no_auth], [], [], w.fs, Option.none⟩ ∧
    status_cmd w uid = ⟨[Msg.no_auth], [], w.fs⟩ ∧
    start_cmd w uid = ⟨[Msg.no_auth], [], w.fs⟩ := by
  have hc : l.contains uid = false := by
    cases h : l.contains uid with
    | false => rfl
    | true => exact absurd (List.elem_iff.mp h) hmem
  have hv : is_user_valid w.allowed_users uid = (false, [Msg.no_auth]) := by
    rw [hpol]
    simp [is_user_valid, policyTruthy, policyIterable, policyContains, hne, hc, hmem]
  refine ⟨?_, ?_, ?_, ?_⟩ <;>
    simp [handle_doc, handle_photo, status_cmd, start_cmd, hv]

theorem deny_before_download_check :
    handle_doc deny_world 99 "report.docx" =
      ⟨[Msg.no_auth], [], [], ["/tmp/existing"], Option.none⟩ ∧
    status_cmd deny_world 99 = ⟨[Msg.no_auth], [], ["/tmp/existing"]⟩ := by
  have h := deny_before_download deny_world 99 [1, 2] "report.docx" "f1" rfl
    (by decide) (by decide)
  exact ⟨h.1, h.2.2.1⟩

theorem build_app_always_attribute_error_check :
    build_app ⟨false, "PDF", "token", ⟨Option.none, Option.none, 20⟩⟩ =
      Except.error PyErr.attributeError :=
  (build_app_always_attribute_error ⟨false, "PDF", "token", ⟨Option.none, Option.none, 20⟩⟩).1
